import Mathlib

/-!
# echo-basics: a severity-tagged remote logging service

A shallow embedding of the Go sources (`models`, `modules`, `routes`, `migrations`)
together with the properties that the service's specification states about them.

Conventions of the embedding:

* `FlagEnum` is a Go string type, so it is embedded as `String`.
* A `uuid.UUID` is 16 bytes; it is embedded as the natural number those bytes
  spell in big-endian order, the nil UUID being `0`.
* A `time.Time` is embedded as an integer instant.
* The `logs` table is a list of rows in storage order.  The handle `*gorm.DB` is
  embedded as the table together with the list of statements sent so far.
* What the relational engine answers to a statement (an error, or the columns it
  generates on insert) is an argument of the handler that sends the statement.
* The pieces of the Go standard library and of third-party packages the handlers
  call (`unicode.ToLower`, `uuid.Parse`, `time.Parse`) are fields of `StdLib`.
-/

namespace EchoBasics

/-! ## package models -/

/-- The Go declaration `type FlagEnum string` of models/enums.go. -/
abbrev FlagEnum := String

/-- The constant `LogFlag` of models/enums.go. -/
def LogFlag : FlagEnum := "log"
/-- The constant `DebugFlag` of models/enums.go. -/
def DebugFlag : FlagEnum := "debug"
/-- The constant `InfoFlag` of models/enums.go. -/
def InfoFlag : FlagEnum := "info"
/-- The constant `WarnFlag` of models/enums.go. -/
def WarnFlag : FlagEnum := "warn"
/-- The constant `ErrorFlag` of models/enums.go. -/
def ErrorFlag : FlagEnum := "error"
/-- The constant `TraceFlag` of models/enums.go. -/
def TraceFlag : FlagEnum := "trace"

/-- A `uuid.UUID`, read as a big-endian number. -/
abbrev UUID := Nat

/-- The nil UUID (all sixteen bytes zero), the zero value of the Go type. -/
def uuidNil : UUID := 0

/-- A `time.Time` instant. -/
abbrev Time := Int

/-- The struct `Log` of models/log.go. -/
structure Log where
  ID : UUID
  Flag : FlagEnum
  Message : String
  Timestamp : Time
deriving DecidableEq

/-- The zero value of `models.Log` (what `var log models.Log` holds). -/
def Log.zero : Log := { ID := uuidNil, Flag := "", Message := "", Timestamp := 0 }

/-! ## package modules -/

/-- The function `GetLogLevel` of modules/utils.go. -/
def GetLogLevel (flag : FlagEnum) : Int :=
  if flag = LogFlag then 0
  else if flag = DebugFlag then 1
  else if flag = InfoFlag then 2
  else if flag = WarnFlag then 3
  else if flag = ErrorFlag then 4
  else if flag = TraceFlag then 5
  else -1

/-- The six canonical flags, in the order of models/enums.go. -/
def canonicalFlags : List FlagEnum :=
  [LogFlag, DebugFlag, InfoFlag, WarnFlag, ErrorFlag, TraceFlag]

/-! ## the libraries the handlers call -/

/-- The library functions whose tables or grammars are not part of this repository:
`unicode.ToLower` (the rune mapping behind `strings.ToLower`), `uuid.Parse` and
`time.Parse` (layout first, value second); `none` stands for a returned error. -/
structure StdLib where
  unicodeToLower : Char → Char
  uuidParse : String → Option UUID
  timeParse : String → String → Option Time

/-- The predicate `unicode.IsSpace`: the Latin-1 spaces tab, line feed, vertical tab,
form feed, carriage return, space, U+0085 and U+00A0, and beyond Latin-1 the runes
with the White_Space property. -/
def unicode.IsSpace (c : Char) : Bool :=
  let n := c.toNat
  n = 0x09 || n = 0x0A || n = 0x0B || n = 0x0C || n = 0x0D || n = 0x20 ||
  n = 0x85 || n = 0xA0 || n = 0x1680 || (0x2000 ≤ n && n ≤ 0x200A) ||
  n = 0x2028 || n = 0x2029 || n = 0x202F || n = 0x205F || n = 0x3000

/-- The function `strings.TrimSpace`: the string without its leading and trailing
white space. -/
def strings.TrimSpace (s : String) : String :=
  ⟨((s.data.dropWhile unicode.IsSpace).reverse.dropWhile unicode.IsSpace).reverse⟩

/-- The function `strings.ToLower`: every rune mapped through `unicode.ToLower`. -/
def strings.ToLower (L : StdLib) (s : String) : String :=
  ⟨s.data.map L.unicodeToLower⟩

/-- The layout constant `time.RFC3339`. -/
def time.RFC3339 : String := "2006-01-02T15:04:05Z07:00"
/-- The layout constant `time.RFC3339Nano`. -/
def time.RFC3339Nano : String := "2006-01-02T15:04:05.999999999Z07:00"

/-- The constant `http.StatusOK`. -/
abbrev http.StatusOK : Nat := 200
/-- The constant `http.StatusCreated`. -/
abbrev http.StatusCreated : Nat := 201
/-- The constant `http.StatusBadRequest`. -/
abbrev http.StatusBadRequest : Nat := 400
/-- The constant `http.StatusForbidden`. -/
abbrev http.StatusForbidden : Nat := 403
/-- The constant `http.StatusNotFound`. -/
abbrev http.StatusNotFound : Nat := 404
/-- The constant `http.StatusInternalServerError`. -/
abbrev http.StatusInternalServerError : Nat := 500

/-! ## the storage layer (gorm over the `logs` table) -/

/-- A statement sent to the relational engine on behalf of a handler. -/
inductive Stmt where
  /-- The query `SELECT * FROM logs`, with `WHERE id = pk` when a key is given. -/
  | select (pk : Option UUID)
  /-- The query `SELECT * FROM logs WHERE id = ? ORDER BY id LIMIT 1`. -/
  | selectFirstByID (id : UUID)
  /-- The query `SELECT * FROM logs WHERE timestamp <= ? ORDER BY timestamp desc, id LIMIT 1`. -/
  | selectLatest (ts : Time)
  /-- The query `SELECT * FROM logs WHERE flag = ?`. -/
  | selectByFlag (flag : String)
  /-- The statement `INSERT INTO logs (flag, message) VALUES (?, ?) RETURNING id, timestamp`. -/
  | insert (flag : FlagEnum) (message : String)
  /-- The statement `DELETE FROM logs WHERE id = ?`. -/
  | delete (id : UUID)
deriving DecidableEq

/-- The handle `*gorm.DB`: the rows of the `logs` table in storage order and the
statements sent so far, oldest first. -/
structure DB where
  rows : List Log
  issued : List Stmt
deriving DecidableEq

/-- The struct `AppContext` of models/context.go; `none` is the nil pointer. -/
structure AppContext where
  DB : Option DB
deriving DecidableEq

/-- The errors a gorm call reports: its own sentinels `ErrRecordNotFound` and
`ErrMissingWhereClause`, or an error of the relational engine. -/
inductive GormError where
  | ErrRecordNotFound
  | ErrMissingWhereClause
  | backend (msg : String)
deriving DecidableEq

/-- The method `Error()` of a gorm error. -/
def GormError.Error : GormError → String
  | .ErrRecordNotFound => "record not found"
  | .ErrMissingWhereClause => "WHERE conditions required"
  | .backend msg => msg

/-- The result of a gorm call: `Error`, the destination after the call, and the handle. -/
structure Res (α : Type) where
  Error : Option GormError
  dest : α
  db : DB

/-- Record that a statement went to the engine. -/
def DB.send (db : DB) (s : Stmt) : DB :=
  { db with issued := db.issued ++ [s] }

/-- The call `db.Find(&logs)` with a slice destination: all rows.  `err` is the
engine's error for the statement, if any. -/
def gorm.FindSlice (db : DB) (err : Option String) : Res (List Log) :=
  match err with
  | some e => { Error := some (.backend e), dest := [], db := db.send (.select none) }
  | none => { Error := none, dest := db.rows, db := db.send (.select none) }

/-- The call `db.Find(&log)` with a struct destination.  gorm adds the condition
`id = log.ID` when the primary key of the destination is not the zero value, and
scans the first returned row into the destination.  `Find` does not raise
`ErrRecordNotFound`: with no row the destination is left as it was and `Error` is nil. -/
def gorm.FindStruct (db : DB) (dest : Log) (err : Option String) : Res Log :=
  let pk : Option UUID := if dest.ID = uuidNil then none else some dest.ID
  match err with
  | some e => { Error := some (.backend e), dest := dest, db := db.send (.select pk) }
  | none =>
    let hit := match pk with
      | none => db.rows.head?
      | some id => db.rows.find? (fun r => decide (r.ID = id))
    { Error := none, dest := hit.getD dest, db := db.send (.select pk) }

/-- The call `db.First(&log, "id = ?", id)` on a zero destination: the row with that
id, or `ErrRecordNotFound` when there is none. -/
def gorm.FirstByID (db : DB) (dest : Log) (id : UUID) (err : Option String) : Res Log :=
  match err with
  | some e => { Error := some (.backend e), dest := dest, db := db.send (.selectFirstByID id) }
  | none =>
    match db.rows.find? (fun r => decide (r.ID = id)) with
    | some r => { Error := none, dest := r, db := db.send (.selectFirstByID id) }
    | none => { Error := some .ErrRecordNotFound, dest := dest, db := db.send (.selectFirstByID id) }

/-- The order `ORDER BY timestamp desc, id`: keep the better of the row found so far
and the next row. -/
def gorm.pickLatest : Option Log → Log → Option Log
  | none, r => some r
  | some b, r =>
    if b.Timestamp < r.Timestamp ∨ (b.Timestamp = r.Timestamp ∧ r.ID < b.ID) then some r
    else some b

/-- The rows selected by `WHERE timestamp <= ts ORDER BY timestamp desc, id LIMIT 1`. -/
def gorm.latestAtOrBefore (rows : List Log) (ts : Time) : Option Log :=
  (rows.filter (fun r => decide (r.Timestamp ≤ ts))).foldl gorm.pickLatest none

/-- The call `db.Where("timestamp <= ?", ts).Order("timestamp desc").First(&log)` on a
zero destination (`First` appends the primary key to the order and limits to one row). -/
def gorm.FirstLatest (db : DB) (dest : Log) (ts : Time) (err : Option String) : Res Log :=
  match err with
  | some e => { Error := some (.backend e), dest := dest, db := db.send (.selectLatest ts) }
  | none =>
    match gorm.latestAtOrBefore db.rows ts with
    | some r => { Error := none, dest := r, db := db.send (.selectLatest ts) }
    | none => { Error := some .ErrRecordNotFound, dest := dest, db := db.send (.selectLatest ts) }

/-- The call `db.Where("flag = ?", flag).Find(&logs)`: the rows with that flag. -/
def gorm.FindByFlag (db : DB) (flag : String) (err : Option String) : Res (List Log) :=
  match err with
  | some e => { Error := some (.backend e), dest := [], db := db.send (.selectByFlag flag) }
  | none =>
    { Error := none, dest := db.rows.filter (fun r => decide (r.Flag = flag)),
      db := db.send (.selectByFlag flag) }

/-- The call `db.Transaction(func(tx) { return tx.Create(&log).Error })` for a log whose
`ID` and `Timestamp` are zero: both columns are left to their defaults
(`uuid_generate_v4()`, `CURRENT_TIMESTAMP`) and read back.  `reply` is the engine's
answer: an error (the transaction is rolled back), or the generated id and timestamp. -/
def gorm.Create (db : DB) (log : Log) (reply : Except String (UUID × Time)) : Res Log :=
  match reply with
  | .error e =>
    { Error := some (.backend e), dest := log, db := db.send (.insert log.Flag log.Message) }
  | .ok (id, now) =>
    let stored : Log := { log with ID := id, Timestamp := now }
    { Error := none, dest := stored,
      db := { rows := db.rows ++ [stored],
              issued := db.issued ++ [.insert log.Flag log.Message] } }

/-- The call `db.Delete(&log)`: `DELETE FROM logs WHERE id = log.ID`.  With a zero
primary key there is no condition and gorm refuses with `ErrMissingWhereClause`
without sending anything. -/
def gorm.Delete (db : DB) (log : Log) (err : Option String) : Res Unit :=
  if log.ID = uuidNil then { Error := some .ErrMissingWhereClause, dest := (), db := db }
  else
    match err with
    | some e => { Error := some (.backend e), dest := (), db := db.send (.delete log.ID) }
    | none =>
      { Error := none, dest := (),
        db := { rows := db.rows.filter (fun r => decide (r.ID ≠ log.ID)),
                issued := db.issued ++ [.delete log.ID] } }

/-! ## package routes -/

/-- The JSON value a handler writes. -/
inductive Body where
  /-- The object with the single key `error`. -/
  | error (msg : String)
  /-- The object with the single key `message`. -/
  | message (msg : String)
  /-- One encoded `models.Log`. -/
  | log (l : Log)
  /-- An encoded slice of `models.Log`. -/
  | logs (ls : List Log)
deriving DecidableEq

/-- What `c.JSON(status, body)` writes. -/
structure Response where
  status : Nat
  body : Body
deriving DecidableEq

/-- The request payload struct of `CreateLog` after `c.Bind`. -/
structure Payload where
  Flag : FlagEnum
  Message : String
deriving DecidableEq

/-- The keys of the map `allowed` built in `CreateLog` and in `FetchFlag`. -/
def allowed : List String :=
  [LogFlag, DebugFlag, InfoFlag, WarnFlag, ErrorFlag, TraceFlag]

/-- The body every handler sends for a malformed request. -/
def badRequest : Body := .error "bad request, i had better expectations from you."

/-- The body sent when the record is not found. -/
def notHere : Body :=
  .error "ummm, wait a bit... Nope, its not here. Maybe you didn't send me that log?"

/-- The handler `CreateLog` of routes/create.go.  `bound` is the payload `c.Bind`
produced (`none` when it returned an error); `reply` is the engine's answer to the
insert, if the insert is reached. -/
def CreateLog (L : StdLib) (app : AppContext) (bound : Option Payload)
    (reply : Except String (UUID × Time)) : Response × AppContext :=
  match app.DB with
  | none => (⟨http.StatusInternalServerError, .error "app context missing"⟩, app)
  | some db =>
    match bound with
    | none => (⟨http.StatusBadRequest, badRequest⟩, app)
    | some payload =>
      let flagStr := strings.ToLower L (strings.TrimSpace payload.Flag)
      let flagStr := if flagStr = "" then InfoFlag else flagStr
      if flagStr ∉ allowed then
        (⟨http.StatusBadRequest, .error "invalid flag value"⟩, app)
      else
        let log : Log := { Log.zero with Flag := flagStr, Message := payload.Message }
        let res := gorm.Create db log reply
        match res.Error with
        | some err => (⟨http.StatusInternalServerError, .error err.Error⟩, ⟨some res.db⟩)
        | none => (⟨http.StatusCreated, .log res.dest⟩, ⟨some res.db⟩)

/-- The handler `FetchLogs` of routes/fetch.go. -/
def FetchLogs (app : AppContext) (err : Option String) : Response × AppContext :=
  match app.DB with
  | none => (⟨http.StatusInternalServerError, .error "app context missing"⟩, app)
  | some db =>
    let res := gorm.FindSlice db err
    match res.Error with
    | some e => (⟨http.StatusInternalServerError, .error e.Error⟩, ⟨some res.db⟩)
    | none => (⟨http.StatusOK, .logs res.dest⟩, ⟨some res.db⟩)

/-- The handler `FetchID` of routes/fetch.go. -/
def FetchID (L : StdLib) (app : AppContext) (idParam : String) (err : Option String) :
    Response × AppContext :=
  match app.DB with
  | none => (⟨http.StatusInternalServerError, .error "app context missing"⟩, app)
  | some db =>
    match L.uuidParse idParam with
    | none => (⟨http.StatusBadRequest, badRequest⟩, app)
    | some id =>
      let res := gorm.FirstByID db Log.zero id err
      match res.Error with
      | some e =>
        if e = GormError.ErrRecordNotFound then (⟨http.StatusNotFound, notHere⟩, ⟨some res.db⟩)
        else (⟨http.StatusInternalServerError, .error e.Error⟩, ⟨some res.db⟩)
      | none => (⟨http.StatusOK, .log res.dest⟩, ⟨some res.db⟩)

/-- The handler `FetchTimestamp` of routes/fetch.go. -/
def FetchTimestamp (L : StdLib) (app : AppContext) (timestampParam : String)
    (err : Option String) : Response × AppContext :=
  match app.DB with
  | none => (⟨http.StatusInternalServerError, .error "app context missing"⟩, app)
  | some db =>
    let tsStr := strings.TrimSpace timestampParam
    if tsStr = "" then (⟨http.StatusBadRequest, badRequest⟩, app)
    else
      let parsed := match L.timeParse time.RFC3339 tsStr with
        | some ts => some ts
        | none => L.timeParse time.RFC3339Nano tsStr
      match parsed with
      | none => (⟨http.StatusBadRequest, badRequest⟩, app)
      | some ts =>
        let res := gorm.FirstLatest db Log.zero ts err
        match res.Error with
        | some e =>
          if e = GormError.ErrRecordNotFound then
            (⟨http.StatusNotFound, notHere⟩, ⟨some res.db⟩)
          else (⟨http.StatusInternalServerError, .error e.Error⟩, ⟨some res.db⟩)
        | none => (⟨http.StatusOK, .log res.dest⟩, ⟨some res.db⟩)

/-- The handler `FetchFlag` of routes/fetch.go. -/
def FetchFlag (L : StdLib) (app : AppContext) (flagRaw : String) (err : Option String) :
    Response × AppContext :=
  match app.DB with
  | none => (⟨http.StatusInternalServerError, .error "app context missing"⟩, app)
  | some db =>
    let flagParam := strings.ToLower L (strings.TrimSpace flagRaw)
    if flagParam = "" then (⟨http.StatusBadRequest, badRequest⟩, app)
    else if flagParam ∉ allowed then
      (⟨http.StatusBadRequest, .error "WHAT'S THAT FLAG? I HAVE NEVER SEEN THAT!!!"⟩, app)
    else
      let res := gorm.FindByFlag db flagParam err
      match res.Error with
      | some e => (⟨http.StatusInternalServerError, .error e.Error⟩, ⟨some res.db⟩)
      | none => (⟨http.StatusOK, .logs res.dest⟩, ⟨some res.db⟩)

/-- The handler `DeleteLog` of routes/detele.go.  `findErr` and `deleteErr` are the
engine's errors for the lookup and for the delete statement, if any; the result of the
delete call is assigned and not read. -/
def DeleteLog (L : StdLib) (app : AppContext) (idParam : String)
    (findErr deleteErr : Option String) : Response × AppContext :=
  match app.DB with
  | none => (⟨http.StatusInternalServerError, .error "app context missing"⟩, app)
  | some db =>
    match L.uuidParse idParam with
    | none => (⟨http.StatusBadRequest, badRequest⟩, app)
    | some id =>
      let log : Log := { Log.zero with ID := id }
      let res := gorm.FindStruct db log findErr
      match res.Error with
      | some e =>
        if e = GormError.ErrRecordNotFound then (⟨http.StatusNotFound, notHere⟩, ⟨some res.db⟩)
        else (⟨http.StatusInternalServerError, .error e.Error⟩, ⟨some res.db⟩)
      | none =>
        if GetLogLevel res.dest.Flag < 4 then
          let res2 := gorm.Delete res.db res.dest deleteErr
          (⟨http.StatusOK,
            .message "That record is long gone now. Don't worry, our secret is now safe."⟩,
           ⟨some res2.db⟩)
        else
          (⟨http.StatusForbidden, .error "EEEEYYYY! You can't do that!"⟩, ⟨some res.db⟩)

/-- A request for one of the two mutating routes, with what the engine answers to the
statements the handler sends. -/
inductive Request where
  /-- The route `POST /api/create`. -/
  | create (bound : Option Payload) (reply : Except String (UUID × Time))
  /-- The route `DELETE /api/delete/:id`. -/
  | delete (idParam : String) (findErr deleteErr : Option String)

/-- Dispatch of a request to its handler, as registered in server.go. -/
def serve (L : StdLib) (app : AppContext) : Request → Response × AppContext
  | .create bound reply => CreateLog L app bound reply
  | .delete idParam findErr deleteErr => DeleteLog L app idParam findErr deleteErr

/-- The application context after serving the requests one after the other. -/
def serveAll (L : StdLib) (app : AppContext) (reqs : List Request) : AppContext :=
  reqs.foldl (fun a r => (serve L a r).2) app

/-- The rows of the table behind an application context (none for a nil handle). -/
def AppContext.rows (app : AppContext) : List Log :=
  match app.DB with
  | none => []
  | some db => db.rows

/-- The statements sent through an application context so far. -/
def AppContext.issued (app : AppContext) : List Stmt :=
  match app.DB with
  | none => []
  | some db => db.issued

/-- A library instance for evaluating the handlers on plain inputs: ASCII lowering,
ids written as a run of the letter `u` (its length is the id), and timestamps written
as a run of the letter `t`. -/
def StdLib.sample : StdLib where
  unicodeToLower := Char.toLower
  uuidParse := fun s => if s.data.all (fun c => c = 'u') then some s.data.length else none
  timeParse := fun _ s =>
    if s.data.all (fun c => c = 't') then some (Int.ofNat s.data.length) else none

/-! ## package migrations -/

/-- The schema objects the migration provisions: the `uuid-ossp` extension, the enum
type `log_flag`, and the table `logs`. -/
structure Schema where
  uuidExtension : Bool
  logFlagType : Bool
  logsTable : Bool
deriving DecidableEq

/-- The statements of the migration. -/
inductive DDL where
  /-- The statement `CREATE EXTENSION IF NOT EXISTS "uuid-ossp"`. -/
  | createExtensionIfNotExists
  /-- The query `SELECT count(*) FROM pg_type WHERE typname = 'log_flag'`. -/
  | countType
  /-- The statement `CREATE TYPE log_flag AS ENUM (...)`. -/
  | createType
  /-- The existence query behind `Migrator().HasTable`. -/
  | hasTable
  /-- The statement `CREATE TABLE "logs" (...)` behind `Migrator().CreateTable`. -/
  | createTable
  /-- The statement `DROP TABLE IF EXISTS "logs" CASCADE` behind `Migrator().DropTable`. -/
  | dropTable
  /-- The `DO` block that drops `log_flag` when `pg_type` lists it. -/
  | dropTypeIfExists
deriving DecidableEq

/-- The transaction handle of a migration: the schema and the statements sent so far. -/
structure Tx where
  schema : Schema
  issued : List DDL
deriving DecidableEq

/-- The calls `tx.Exec(...)`, `CreateTable` and `DropTable`: send a statement that
returns no rows.  `fault d` is an error the engine reports for `d` for reasons of its own;
otherwise the engine applies the statement, and refuses a `CREATE` of an object that
exists, a table whose column type or default function is missing, and the drop of a type
a table still uses. -/
def Tx.Exec (fault : DDL → Option String) (tx : Tx) (d : DDL) : Option String × Tx :=
  let sent : Tx := { tx with issued := tx.issued ++ [d] }
  match fault d with
  | some e => (some e, sent)
  | none =>
    let s := tx.schema
    match d with
    | .createExtensionIfNotExists => (none, { sent with schema := { s with uuidExtension := true } })
    | .countType => (none, sent)
    | .hasTable => (none, sent)
    | .createType =>
      if s.logFlagType then (some "type \"log_flag\" already exists", sent)
      else (none, { sent with schema := { s with logFlagType := true } })
    | .createTable =>
      if s.logsTable then (some "relation \"logs\" already exists", sent)
      else if !s.logFlagType then (some "type \"log_flag\" does not exist", sent)
      else if !s.uuidExtension then (some "function uuid_generate_v4() does not exist", sent)
      else (none, { sent with schema := { s with logsTable := true } })
    | .dropTable => (none, { sent with schema := { s with logsTable := false } })
    | .dropTypeIfExists =>
      if s.logFlagType then
        if s.logsTable then
          (some "cannot drop type log_flag because other objects depend on it", sent)
        else (none, { sent with schema := { s with logFlagType := false } })
      else (none, sent)

/-- The call `tx.Raw("SELECT count(*) FROM pg_type WHERE typname = ?", "log_flag").Scan(&typCount)`:
the error, the scanned count and the handle. -/
def Tx.CountType (fault : DDL → Option String) (tx : Tx) : Option String × Nat × Tx :=
  let sent : Tx := { tx with issued := tx.issued ++ [DDL.countType] }
  match fault DDL.countType with
  | some e => (some e, 0, sent)
  | none => (none, if tx.schema.logFlagType then 1 else 0, sent)

/-- The call `tx.Migrator().HasTable(&models.Log{})`; a failed query reads as false. -/
def Tx.HasTable (fault : DDL → Option String) (tx : Tx) : Bool × Tx :=
  let sent : Tx := { tx with issued := tx.issued ++ [DDL.hasTable] }
  match fault DDL.hasTable with
  | some _ => (false, sent)
  | none => (tx.schema.logsTable, sent)

/-- The function `Migrate` of the migration in migrations/migrations.go: the returned
error and the handle afterwards. -/
def Migrate (fault : DDL → Option String) (tx : Tx) : Option String × Tx :=
  match tx.Exec fault .createExtensionIfNotExists with
  | (some err, tx) => (some err, tx)
  | (none, tx) =>
    match tx.CountType fault with
    | (some err, _, tx) => (some err, tx)
    | (none, typCount, tx) =>
      let created : Option String × Tx :=
        if typCount = 0 then tx.Exec fault .createType else (none, tx)
      match created with
      | (some err, tx) => (some err, tx)
      | (none, tx) =>
        match tx.HasTable fault with
        | (false, tx) =>
          match tx.Exec fault .createTable with
          | (some err, tx) => (some err, tx)
          | (none, tx) => (none, tx)
        | (true, tx) => (none, tx)

/-- The function `Rollback` of the migration in migrations/migrations.go. -/
def Rollback (fault : DDL → Option String) (tx : Tx) : Option String × Tx :=
  let dropped : Option String × Tx :=
    match tx.HasTable fault with
    | (true, tx) => tx.Exec fault .dropTable
    | (false, tx) => (none, tx)
  match dropped with
  | (some err, tx) => (some err, tx)
  | (none, tx) =>
    match tx.Exec fault .dropTypeIfExists with
    | (some err, tx) => (some err, tx)
    | (none, tx) => (none, tx)

/-- An engine that reports no error of its own. -/
def noFault : DDL → Option String := fun _ => none

/-! ## theorems -/

/-- C2: `GetLogLevel` sends log, debug, info, warn, error, trace to 0, 1, 2, 3, 4, 5
(strictly increasing, hence injective on the canonical flags), and it returns -1
exactly on the strings that are none of the six canonical flags. -/
theorem GetLogLevel_canonical :
    (canonicalFlags.map GetLogLevel = [0, 1, 2, 3, 4, 5]) ∧
    (∀ f ∈ canonicalFlags, ∀ g ∈ canonicalFlags, GetLogLevel f = GetLogLevel g → f = g) ∧
    (∀ f : FlagEnum, GetLogLevel f = -1 ↔ f ∉ canonicalFlags) := by
  refine ⟨by decide, by decide, ?_⟩
  intro f
  unfold GetLogLevel canonicalFlags
  simp only [List.mem_cons, List.mem_singleton, List.not_mem_nil, or_false, not_or]
  split_ifs <;> simp_all

/-! ### lookups by primary key -/

/-- With pairwise distinct ids, looking a stored row up by its id finds that row. -/
theorem find_ID_of_mem {rows : List Log} {r : Log} (hpk : (rows.map Log.ID).Nodup)
    (hr : r ∈ rows) : rows.find? (fun x => decide (x.ID = r.ID)) = some r := by
  induction rows with
  | nil => simp at hr
  | cons a l ih =>
    simp only [List.map_cons, List.nodup_cons, List.mem_map, not_exists, not_and] at hpk
    rcases List.mem_cons.mp hr with h | h
    · subst h
      simp
    · have hne : a.ID ≠ r.ID := fun e => hpk.1 r h e.symm
      simp [List.find?_cons, hne, ih hpk.2 h]

/-- With pairwise distinct ids, removing the rows with the id of a stored row removes
that row and nothing else. -/
theorem filter_ID_ne_of_mem {rows : List Log} {r : Log} (hpk : (rows.map Log.ID).Nodup)
    (hr : r ∈ rows) :
    rows.filter (fun x => decide (x.ID ≠ r.ID)) = rows.filter (fun x => decide (x ≠ r)) := by
  apply List.filter_congr
  intro x hx
  have hinj : x.ID = r.ID → x = r := fun e => List.inj_on_of_nodup_map hpk hx hr e
  by_cases hxr : x = r
  · subst hxr
    simp
  · have : x.ID ≠ r.ID := fun e => hxr (hinj e)
    simp [hxr, this]

/-- When no stored row has the id, the lookup by id finds nothing. -/
theorem find_ID_of_absent {rows : List Log} {id : UUID} (h : ∀ r ∈ rows, r.ID ≠ id) :
    rows.find? (fun x => decide (x.ID = id)) = none := by
  simpa [List.find?_eq_none] using h

/-- When no stored row has the id, removing the rows with that id changes nothing. -/
theorem filter_ID_of_absent {rows : List Log} {id : UUID} (h : ∀ r ∈ rows, r.ID ≠ id) :
    rows.filter (fun x => decide (x.ID ≠ id)) = rows := by
  simpa [List.filter_eq_self] using h

/-- C1: for a stored record `r` (ids are the table's primary key, and a stored id is not
the nil UUID) and the request `DeleteLog(r.ID)` on a working engine: when
`GetLogLevel(r.Flag) < 4` the response is 200 and the store afterwards is the store
without `r`; when `GetLogLevel(r.Flag) >= 4` the response is 403, no delete is sent and
the store is what it was. -/
theorem DeleteLog_rank_gate (L : StdLib) (db : DB) (r : Log) (idParam : String)
    (hid : L.uuidParse idParam = some r.ID) (hr : r ∈ db.rows)
    (hpk : (db.rows.map Log.ID).Nodup) (hnil : r.ID ≠ uuidNil) :
    (GetLogLevel r.Flag < 4 →
      (DeleteLog L ⟨some db⟩ idParam none none).1.status = http.StatusOK ∧
      r ∉ (DeleteLog L ⟨some db⟩ idParam none none).2.rows ∧
      (DeleteLog L ⟨some db⟩ idParam none none).2.rows
        = db.rows.filter (fun x => decide (x ≠ r))) ∧
    (4 ≤ GetLogLevel r.Flag →
      (DeleteLog L ⟨some db⟩ idParam none none).1.status = http.StatusForbidden ∧
      (DeleteLog L ⟨some db⟩ idParam none none).2.issued
        = db.issued ++ [Stmt.select (some r.ID)] ∧
      (DeleteLog L ⟨some db⟩ idParam none none).2.rows = db.rows) := by
  have hfind := find_ID_of_mem hpk hr
  have hfilter := filter_ID_ne_of_mem hpk hr
  constructor
  · intro hlt
    simp only [decide_not] at hfilter
    simp [DeleteLog, hid, gorm.FindStruct, hnil, hfind, hlt, gorm.Delete, DB.send,
      AppContext.rows, hfilter]
  · intro hge
    have hnot : ¬ GetLogLevel r.Flag < 4 := not_lt.mpr hge
    simp [DeleteLog, hid, gorm.FindStruct, hnil, hfind, hnot, DB.send, AppContext.rows,
      AppContext.issued]

/-- C1, at a store holding a `warn` record and an `error` record: deleting the first
succeeds and leaves only the second; deleting the second is refused. -/
theorem DeleteLog_rank_gate_witness :
    ((DeleteLog StdLib.sample ⟨some ⟨[⟨1, "warn", "w", 10⟩, ⟨2, "error", "e", 11⟩], []⟩⟩
        "u" none none).1.status = 200 ∧
     (DeleteLog StdLib.sample ⟨some ⟨[⟨1, "warn", "w", 10⟩, ⟨2, "error", "e", 11⟩], []⟩⟩
        "u" none none).2.rows = [⟨2, "error", "e", 11⟩]) ∧
    ((DeleteLog StdLib.sample ⟨some ⟨[⟨1, "warn", "w", 10⟩, ⟨2, "error", "e", 11⟩], []⟩⟩
        "uu" none none).1.status = 403 ∧
     (DeleteLog StdLib.sample ⟨some ⟨[⟨1, "warn", "w", 10⟩, ⟨2, "error", "e", 11⟩], []⟩⟩
        "uu" none none).2.rows = [⟨1, "warn", "w", 10⟩, ⟨2, "error", "e", 11⟩]) := by
  have h1 := (DeleteLog_rank_gate StdLib.sample
    ⟨[⟨1, "warn", "w", 10⟩, ⟨2, "error", "e", 11⟩], []⟩ ⟨1, "warn", "w", 10⟩ "u"
    (by decide) (by decide) (by decide) (by decide)).1 (by decide)
  have h2 := (DeleteLog_rank_gate StdLib.sample
    ⟨[⟨1, "warn", "w", 10⟩, ⟨2, "error", "e", 11⟩], []⟩ ⟨2, "error", "e", 11⟩ "uu"
    (by decide) (by decide) (by decide) (by decide)).2 (by decide)
  exact ⟨⟨h1.1, h1.2.2.trans (by decide)⟩, ⟨h2.1, h2.2.2⟩⟩

/-- C3: for a well-formed id (not the nil UUID) that no stored record has, `DeleteLog`
does not answer 404: the lookup `Find` reports no error, the zero flag of the empty
destination has rank -1, so the handler sends the delete statement and answers 200.  The
rows of the store are left as they were. -/
theorem DeleteLog_absent_id (L : StdLib) (db : DB) (idParam : String) (id : UUID)
    (hid : L.uuidParse idParam = some id) (hnil : id ≠ uuidNil)
    (habsent : ∀ r ∈ db.rows, r.ID ≠ id) :
    DeleteLog L ⟨some db⟩ idParam none none =
      (⟨http.StatusOK,
        .message "That record is long gone now. Don't worry, our secret is now safe."⟩,
       ⟨some ⟨db.rows, db.issued ++ [Stmt.select (some id), Stmt.delete id]⟩⟩) := by
  have hfind := find_ID_of_absent habsent
  have hfilter := filter_ID_of_absent habsent
  simp only [decide_not] at hfilter
  have hrank : GetLogLevel "" < 4 := by decide
  simp [DeleteLog, hid, gorm.FindStruct, hnil, hfind, Log.zero, hrank, gorm.Delete, DB.send,
    hfilter]

/-- C3, on a store whose only record has id 1: deleting id 3 answers 200, not 404, after
sending a lookup and a delete. -/
theorem DeleteLog_absent_id_witness :
    DeleteLog StdLib.sample ⟨some ⟨[⟨1, "error", "e", 10⟩], []⟩⟩ "uuu" none none =
      (⟨200, .message "That record is long gone now. Don't worry, our secret is now safe."⟩,
       ⟨some ⟨[⟨1, "error", "e", 10⟩], [Stmt.select (some 3), Stmt.delete 3]⟩⟩) :=
  DeleteLog_absent_id StdLib.sample ⟨[⟨1, "error", "e", 10⟩], []⟩ "uuu" 3
    (by decide) (by decide) (by decide)

/-- C4: `CreateLog` does not reject an empty message.  For every flag whose normal form
is an allowed flag `c`, a request with the empty message is answered 201 and the record
with flag `c` and the empty message is appended to the store. -/
theorem CreateLog_empty_message (L : StdLib) (db : DB) (flag c : FlagEnum) (id : UUID)
    (now : Time) (hnorm : strings.ToLower L (strings.TrimSpace flag) = c)
    (hc : c ∈ allowed) :
    CreateLog L ⟨some db⟩ (some ⟨flag, ""⟩) (.ok (id, now)) =
      (⟨http.StatusCreated, .log ⟨id, c, "", now⟩⟩,
       ⟨some ⟨db.rows ++ [⟨id, c, "", now⟩], db.issued ++ [Stmt.insert c ""]⟩⟩) := by
  have hne : c ≠ "" := by
    intro h
    subst h
    revert hc
    decide
  simp [CreateLog, hnorm, hne, hc, gorm.Create, Log.zero]

/-- C4, on the empty store: creating with flag `info` and the empty message answers 201
and stores the record. -/
theorem CreateLog_empty_message_witness :
    CreateLog StdLib.sample ⟨some ⟨[], []⟩⟩ (some ⟨"info", ""⟩) (.ok (7, 100)) =
      (⟨201, .log ⟨7, "info", "", 100⟩⟩,
       ⟨some ⟨[⟨7, "info", "", 100⟩], [Stmt.insert "info" ""]⟩⟩) :=
  CreateLog_empty_message StdLib.sample ⟨[], []⟩ "info" "info" 7 100 (by decide) (by decide)

/-- C6: for a non-empty message and a flag that is empty, or empty once its white space
is trimmed, `CreateLog` on a working engine appends a record whose flag is `info` and
answers 201 with that record. -/
theorem CreateLog_default_flag (L : StdLib) (db : DB) (p : Payload) (id : UUID) (now : Time)
    (_hmsg : p.Message ≠ "") (hflag : p.Flag = "" ∨ strings.TrimSpace p.Flag = "") :
    CreateLog L ⟨some db⟩ (some p) (.ok (id, now)) =
      (⟨http.StatusCreated, .log ⟨id, InfoFlag, p.Message, now⟩⟩,
       ⟨some ⟨db.rows ++ [⟨id, InfoFlag, p.Message, now⟩],
              db.issued ++ [Stmt.insert InfoFlag p.Message]⟩⟩) := by
  have htrim : strings.TrimSpace p.Flag = "" := by
    rcases hflag with h | h
    · rw [h]; decide
    · exact h
  have hlow : strings.ToLower L (strings.TrimSpace p.Flag) = "" := by
    rw [htrim]; rfl
  have hin : InfoFlag ∈ allowed := by decide
  simp [CreateLog, hlow, hin, gorm.Create, Log.zero]

/-- C6, on the empty store: a flag of two blanks is stored as `info`. -/
theorem CreateLog_default_flag_witness :
    CreateLog StdLib.sample ⟨some ⟨[], []⟩⟩ (some ⟨"  ", "hello"⟩) (.ok (7, 100)) =
      (⟨201, .log ⟨7, "info", "hello", 100⟩⟩,
       ⟨some ⟨[⟨7, "info", "hello", 100⟩], [Stmt.insert "info" "hello"]⟩⟩) :=
  CreateLog_default_flag StdLib.sample ⟨[], []⟩ ⟨"  ", "hello"⟩ 7 100 (by decide)
    (Or.inr (by decide))

/-- Every storage call other than the delete statement of `DeleteLog` surfaces an error
of the engine as a 500 response carrying the error text: the insert of `CreateLog`, the
queries of `FetchLogs`, `FetchID`, `FetchTimestamp` and `FetchFlag`, and the lookup of
`DeleteLog`. -/
theorem storage_error_surfaced (L : StdLib) (db : DB) (e : String) :
    (∀ p, (if strings.ToLower L (strings.TrimSpace p.Flag) = "" then InfoFlag
            else strings.ToLower L (strings.TrimSpace p.Flag)) ∈ allowed →
      (CreateLog L ⟨some db⟩ (some p) (.error e)).1
        = ⟨http.StatusInternalServerError, .error e⟩) ∧
    (FetchLogs ⟨some db⟩ (some e)).1 = ⟨http.StatusInternalServerError, .error e⟩ ∧
    (∀ idParam id, L.uuidParse idParam = some id →
      (FetchID L ⟨some db⟩ idParam (some e)).1 = ⟨http.StatusInternalServerError, .error e⟩) ∧
    (∀ tsParam t, strings.TrimSpace tsParam ≠ "" →
      L.timeParse time.RFC3339 (strings.TrimSpace tsParam) = some t →
      (FetchTimestamp L ⟨some db⟩ tsParam (some e)).1
        = ⟨http.StatusInternalServerError, .error e⟩) ∧
    (∀ s, strings.ToLower L (strings.TrimSpace s) ∈ allowed →
      (FetchFlag L ⟨some db⟩ s (some e)).1 = ⟨http.StatusInternalServerError, .error e⟩) ∧
    (∀ idParam id deleteErr, L.uuidParse idParam = some id →
      (DeleteLog L ⟨some db⟩ idParam (some e) deleteErr).1
        = ⟨http.StatusInternalServerError, .error e⟩) := by
  refine ⟨?_, ?_, ?_, ?_, ?_, ?_⟩
  · intro p hp
    simp only [CreateLog, hp, not_true_eq_false, if_false, gorm.Create, GormError.Error]
  · simp [FetchLogs, gorm.FindSlice, GormError.Error]
  · intro idParam id hid
    simp [FetchID, hid, gorm.FirstByID, GormError.Error]
  · intro tsParam t hne hparse
    simp [FetchTimestamp, hne, hparse, gorm.FirstLatest, GormError.Error]
  · intro s hs
    have hne : strings.ToLower L (strings.TrimSpace s) ≠ "" := by
      intro h
      rw [h] at hs
      revert hs
      decide
    simp [FetchFlag, hne, hs, gorm.FindByFlag, GormError.Error]
  · intro idParam id deleteErr hid
    simp [DeleteLog, hid, gorm.FindStruct, GormError.Error]

/-- C9: `DeleteLog` does not surface a failure of the delete statement.  For a stored
record of rank below 4, when the lookup succeeds and the engine reports the error `e`
for the delete, the response is still 200, and the record is still stored. -/
theorem DeleteLog_delete_error (L : StdLib) (db : DB) (r : Log) (idParam e : String)
    (hid : L.uuidParse idParam = some r.ID) (hr : r ∈ db.rows)
    (hpk : (db.rows.map Log.ID).Nodup) (hnil : r.ID ≠ uuidNil)
    (hlt : GetLogLevel r.Flag < 4) :
    DeleteLog L ⟨some db⟩ idParam none (some e) =
      (⟨http.StatusOK,
        .message "That record is long gone now. Don't worry, our secret is now safe."⟩,
       ⟨some ⟨db.rows, db.issued ++ [Stmt.select (some r.ID), Stmt.delete r.ID]⟩⟩) := by
  have hfind := find_ID_of_mem hpk hr
  simp [DeleteLog, hid, gorm.FindStruct, hnil, hfind, hlt, gorm.Delete, DB.send]

/-- C9, on a store holding one `warn` record: the delete statement fails with
`connection reset`, the response is 200 and the record stays. -/
theorem DeleteLog_delete_error_witness :
    DeleteLog StdLib.sample ⟨some ⟨[⟨1, "warn", "w", 10⟩], []⟩⟩ "u" none
        (some "connection reset") =
      (⟨200, .message "That record is long gone now. Don't worry, our secret is now safe."⟩,
       ⟨some ⟨[⟨1, "warn", "w", 10⟩], [Stmt.select (some 1), Stmt.delete 1]⟩⟩) :=
  DeleteLog_delete_error StdLib.sample ⟨[⟨1, "warn", "w", 10⟩], []⟩ ⟨1, "warn", "w", 10⟩ "u"
    "connection reset" (by decide) (by decide) (by decide) (by decide) (by decide)

/-- C7: write `c` for the lower-cased, trimmed flag parameter `s`.  When `c` is a canonical
flag, `FetchFlag` on a working engine answers 200 with exactly the stored records whose
flag is `c` (possibly none), after one query by flag; when `c` is not canonical (the empty
string included) it answers 400 and sends nothing to the store; and two parameters with
the same normal form get the same answer on the same store. -/
theorem FetchFlag_normalised (L : StdLib) (db : DB) (s : String) :
    (strings.ToLower L (strings.TrimSpace s) ∈ canonicalFlags →
      FetchFlag L ⟨some db⟩ s none =
        (⟨http.StatusOK, .logs (db.rows.filter (fun r =>
            decide (r.Flag = strings.ToLower L (strings.TrimSpace s))))⟩,
         ⟨some ⟨db.rows,
            db.issued ++ [Stmt.selectByFlag (strings.ToLower L (strings.TrimSpace s))]⟩⟩)) ∧
    (strings.ToLower L (strings.TrimSpace s) ∉ canonicalFlags →
      ∀ err, (FetchFlag L ⟨some db⟩ s err).1.status = http.StatusBadRequest ∧
        (FetchFlag L ⟨some db⟩ s err).2 = ⟨some db⟩) ∧
    (∀ s2 err, strings.ToLower L (strings.TrimSpace s2) = strings.ToLower L (strings.TrimSpace s) →
      FetchFlag L ⟨some db⟩ s2 err = FetchFlag L ⟨some db⟩ s err) := by
  refine ⟨?_, ?_, ?_⟩
  · intro hc
    have hallowed : strings.ToLower L (strings.TrimSpace s) ∈ allowed := hc
    have hne : strings.ToLower L (strings.TrimSpace s) ≠ "" := by
      intro h
      rw [h] at hc
      revert hc
      decide
    simp [FetchFlag, hne, hallowed, gorm.FindByFlag, DB.send]
  · intro hc err
    have hallowed : strings.ToLower L (strings.TrimSpace s) ∉ allowed := hc
    by_cases hne : strings.ToLower L (strings.TrimSpace s) = ""
    · simp [FetchFlag, hne]
    · simp [FetchFlag, hne, hallowed]
  · intro s2 err h
    simp only [FetchFlag, h]

/-- C7, on a store with two `warn` records and one `info` record: the parameters `WARN`,
` warn ` and `warn` all return the two `warn` records, and the parameter `warning` and
the blank parameter are answered 400 with nothing sent to the store. -/
theorem FetchFlag_normalised_witness :
    (FetchFlag StdLib.sample
        ⟨some ⟨[⟨1, "warn", "a", 10⟩, ⟨2, "info", "b", 11⟩, ⟨3, "warn", "c", 12⟩], []⟩⟩
        " warn " none).1 = ⟨200, .logs [⟨1, "warn", "a", 10⟩, ⟨3, "warn", "c", 12⟩]⟩ ∧
    FetchFlag StdLib.sample
        ⟨some ⟨[⟨1, "warn", "a", 10⟩, ⟨2, "info", "b", 11⟩, ⟨3, "warn", "c", 12⟩], []⟩⟩
        "WARN" none =
      FetchFlag StdLib.sample
        ⟨some ⟨[⟨1, "warn", "a", 10⟩, ⟨2, "info", "b", 11⟩, ⟨3, "warn", "c", 12⟩], []⟩⟩
        " warn " none ∧
    (FetchFlag StdLib.sample
        ⟨some ⟨[⟨1, "warn", "a", 10⟩, ⟨2, "info", "b", 11⟩, ⟨3, "warn", "c", 12⟩], []⟩⟩
        "warning" none).1.status = 400 ∧
    (FetchFlag StdLib.sample ⟨some ⟨[], []⟩⟩ "  " none).2 = ⟨some ⟨[], []⟩⟩ := by
  refine ⟨?_, ?_, ?_, ?_⟩
  · have h := (FetchFlag_normalised StdLib.sample
      ⟨[⟨1, "warn", "a", 10⟩, ⟨2, "info", "b", 11⟩, ⟨3, "warn", "c", 12⟩], []⟩ " warn ").1
      (by decide)
    rw [h]
    decide
  · exact (FetchFlag_normalised StdLib.sample
      ⟨[⟨1, "warn", "a", 10⟩, ⟨2, "info", "b", 11⟩, ⟨3, "warn", "c", 12⟩], []⟩ " warn ").2.2
      "WARN" none (by decide)
  · exact ((FetchFlag_normalised StdLib.sample
      ⟨[⟨1, "warn", "a", 10⟩, ⟨2, "info", "b", 11⟩, ⟨3, "warn", "c", 12⟩], []⟩ "warning").2.1
      (by decide) none).1
  · exact ((FetchFlag_normalised StdLib.sample ⟨[], []⟩ "  ").2.1 (by decide) none).2

/-- C10: on an engine that reports no error of its own, from every schema state:
`Migrate` succeeds and leaves the extension, the type and the table present; running it
again succeeds, leaves the same state, and sends neither `CREATE TYPE` nor a table
creation; the first run sends `CREATE TYPE` only when the type was absent and creates the
table only when the table was absent.  `Rollback` succeeds (also when nothing was
provisioned), sends the table drop, if any, before the type drop, leaves neither table
nor type, and running it again leaves the same state. -/
theorem Migrate_Rollback_idempotent (fault : DDL → Option String)
    (hok : ∀ d, fault d = none) (s : Schema) :
    ((Migrate fault ⟨s, []⟩).1 = none ∧
     (Migrate fault ⟨s, []⟩).2.schema = ⟨true, true, true⟩ ∧
     (Migrate fault ⟨(Migrate fault ⟨s, []⟩).2.schema, []⟩).1 = none ∧
     (Migrate fault ⟨(Migrate fault ⟨s, []⟩).2.schema, []⟩).2.schema
       = (Migrate fault ⟨s, []⟩).2.schema ∧
     (Migrate fault ⟨(Migrate fault ⟨s, []⟩).2.schema, []⟩).2.issued
       = [DDL.createExtensionIfNotExists, DDL.countType, DDL.hasTable] ∧
     (DDL.createType ∈ (Migrate fault ⟨s, []⟩).2.issued ↔ s.logFlagType = false) ∧
     (DDL.createTable ∈ (Migrate fault ⟨s, []⟩).2.issued ↔ s.logsTable = false)) ∧
    ((Rollback fault ⟨s, []⟩).1 = none ∧
     (Rollback fault ⟨s, []⟩).2.schema = ⟨s.uuidExtension, false, false⟩ ∧
     (Rollback fault ⟨s, []⟩).2.issued
       = (if s.logsTable then [DDL.hasTable, DDL.dropTable, DDL.dropTypeIfExists]
          else [DDL.hasTable, DDL.dropTypeIfExists]) ∧
     (Rollback fault ⟨(Rollback fault ⟨s, []⟩).2.schema, []⟩).1 = none ∧
     (Rollback fault ⟨(Rollback fault ⟨s, []⟩).2.schema, []⟩).2.schema
       = (Rollback fault ⟨s, []⟩).2.schema) := by
  have hfault : fault = noFault := funext hok
  subst hfault
  obtain ⟨e, t, l⟩ := s
  revert e t l
  decide

/-- C10, from the state where nothing is provisioned. -/
theorem Migrate_Rollback_idempotent_witness :
    (Migrate noFault ⟨⟨false, false, false⟩, []⟩).2.schema = ⟨true, true, true⟩ ∧
    (Migrate noFault ⟨⟨true, true, true⟩, []⟩).2.schema = ⟨true, true, true⟩ ∧
    (Rollback noFault ⟨⟨false, false, false⟩, []⟩).1 = none ∧
    (Rollback noFault ⟨⟨true, true, true⟩, []⟩).2.issued
      = [DDL.hasTable, DDL.dropTable, DDL.dropTypeIfExists] := by
  have h0 := Migrate_Rollback_idempotent noFault (fun _ => rfl) ⟨false, false, false⟩
  have h1 := Migrate_Rollback_idempotent noFault (fun _ => rfl) ⟨true, true, true⟩
  exact ⟨h0.1.2.1, h1.1.2.1, h0.2.1, h1.2.2.2.1⟩

/-! ### the latest row at or before an instant -/

/-- One step of the selection keeps a row that is the new row or the row kept so far, and
that is at least as late as both. -/
theorem pickLatest_spec (acc : Option Log) (a : Log) :
    ∃ c, gorm.pickLatest acc a = some c ∧ (c = a ∨ acc = some c) ∧
      a.Timestamp ≤ c.Timestamp ∧ ∀ b, acc = some b → b.Timestamp ≤ c.Timestamp := by
  cases acc with
  | none => exact ⟨a, rfl, Or.inl rfl, le_refl _, by simp⟩
  | some b =>
    by_cases h : b.Timestamp < a.Timestamp ∨ (b.Timestamp = a.Timestamp ∧ a.ID < b.ID)
    · refine ⟨a, by simp [gorm.pickLatest, h], Or.inl rfl, le_refl _, ?_⟩
      intro b2 hb2
      cases hb2
      rcases h with h | h
      · exact le_of_lt h
      · exact le_of_eq h.1
    · refine ⟨b, by simp [gorm.pickLatest, h], Or.inr rfl, ?_, ?_⟩
      · by_contra hlt
        exact h (Or.inl (not_le.mp hlt))
      · intro b2 hb2
        cases hb2
        exact le_refl _

/-- The selection over a list returns a row of the list (or the row it started from) that
is at least as late as every row of the list and as the row it started from; it returns
nothing only when it started from nothing on the empty list. -/
theorem foldl_pickLatest_spec (l : List Log) :
    ∀ acc : Option Log,
      (∀ r, l.foldl gorm.pickLatest acc = some r →
        (r ∈ l ∨ acc = some r) ∧ (∀ x ∈ l, x.Timestamp ≤ r.Timestamp) ∧
        (∀ b, acc = some b → b.Timestamp ≤ r.Timestamp)) ∧
      (l.foldl gorm.pickLatest acc = none → acc = none ∧ l = []) := by
  induction l with
  | nil =>
    intro acc
    refine ⟨?_, ?_⟩
    · intro r hr
      simp only [List.foldl_nil] at hr
      refine ⟨Or.inr hr, by simp, ?_⟩
      intro b hb
      rw [hr] at hb
      cases hb
      exact le_refl _
    · intro h
      exact ⟨h, rfl⟩
  | cons a l ih =>
    intro acc
    obtain ⟨c, hc, hsrc, hac, hbc⟩ := pickLatest_spec acc a
    have ihc := ih (some c)
    simp only [List.foldl_cons, hc]
    refine ⟨?_, ?_⟩
    · intro r hr
      obtain ⟨hmem, hall, hacc⟩ := ihc.1 r hr
      have hcr : c.Timestamp ≤ r.Timestamp := hacc c rfl
      refine ⟨?_, ?_, ?_⟩
      · rcases hmem with hm | hm
        · exact Or.inl (List.mem_cons_of_mem _ hm)
        · cases hm
          rcases hsrc with h | h
          · exact Or.inl (by simp [h])
          · exact Or.inr h
      · intro x hx
        rcases List.mem_cons.mp hx with h | h
        · subst h
          exact le_trans hac hcr
        · exact hall x h
      · intro b hb
        exact le_trans (hbc b hb) hcr
    · intro h
      exact absurd (ihc.2 h).1 (by simp)

/-- The row selected for an instant `t` is a stored row at or before `t` with no stored
row strictly between it and `t`; nothing is selected exactly when no stored row is at or
before `t`. -/
theorem latestAtOrBefore_spec (rows : List Log) (t : Time) :
    (∀ r, gorm.latestAtOrBefore rows t = some r →
      r ∈ rows ∧ r.Timestamp ≤ t ∧
      ∀ x ∈ rows, ¬ (r.Timestamp < x.Timestamp ∧ x.Timestamp ≤ t)) ∧
    (gorm.latestAtOrBefore rows t = none ↔ ∀ x ∈ rows, t < x.Timestamp) := by
  have hspec := foldl_pickLatest_spec (rows.filter (fun r => decide (r.Timestamp ≤ t))) none
  refine ⟨?_, ?_⟩
  · intro r hr
    obtain ⟨hmem, hall, -⟩ := hspec.1 r hr
    have hmem2 : r ∈ rows.filter (fun r => decide (r.Timestamp ≤ t)) := by
      rcases hmem with h | h
      · exact h
      · cases h
    have hr2 := List.mem_filter.mp hmem2
    refine ⟨hr2.1, by simpa using hr2.2, ?_⟩
    rintro x hx ⟨hlt, hle⟩
    have hx2 : x ∈ rows.filter (fun r => decide (r.Timestamp ≤ t)) :=
      List.mem_filter.mpr ⟨hx, by simpa using hle⟩
    exact absurd (hall x hx2) (not_le.mpr hlt)
  · constructor
    · intro h x hx
      have hnil := (hspec.2 h).2
      by_contra hle
      have hx2 : x ∈ rows.filter (fun r => decide (r.Timestamp ≤ t)) :=
        List.mem_filter.mpr ⟨hx, by simpa using not_lt.mp hle⟩
      rw [hnil] at hx2
      cases hx2
    · intro h
      have hnil : rows.filter (fun r => decide (r.Timestamp ≤ t)) = [] := by
        rw [List.filter_eq_nil_iff]
        intro x hx
        simpa using h x hx
      unfold gorm.latestAtOrBefore
      rw [hnil]
      rfl

/-- C8: for a timestamp parameter that parses to `t` (as RFC3339, or failing that as
RFC3339Nano) and a working engine: when some stored record is at or before `t`,
`FetchTimestamp` answers 200 with a stored record `r` at or before `t` such that no stored
record lies strictly after `r` and at or before `t`; when no stored record is at or before
`t` it answers 404.  In particular, when the stored records are `a`, `b`, `c` with
timestamps `T1 < T2 < T3`, a query at `T2` returns `b` and a query before `T1` is 404. -/
theorem FetchTimestamp_latest (L : StdLib) (db : DB) (tsParam : String) (t : Time)
    (hne : strings.TrimSpace tsParam ≠ "")
    (hparse : L.timeParse time.RFC3339 (strings.TrimSpace tsParam) = some t ∨
      (L.timeParse time.RFC3339 (strings.TrimSpace tsParam) = none ∧
       L.timeParse time.RFC3339Nano (strings.TrimSpace tsParam) = some t)) :
    ((∃ x ∈ db.rows, x.Timestamp ≤ t) →
      ∃ r ∈ db.rows, (FetchTimestamp L ⟨some db⟩ tsParam none).1 = ⟨http.StatusOK, .log r⟩ ∧
        r.Timestamp ≤ t ∧ ∀ x ∈ db.rows, ¬ (r.Timestamp < x.Timestamp ∧ x.Timestamp ≤ t)) ∧
    ((∀ x ∈ db.rows, t < x.Timestamp) →
      (FetchTimestamp L ⟨some db⟩ tsParam none).1 = ⟨http.StatusNotFound, notHere⟩) ∧
    (∀ a b c : Log, (∀ x, x ∈ db.rows ↔ x = a ∨ x = b ∨ x = c) →
      a.Timestamp < b.Timestamp → b.Timestamp < c.Timestamp →
      (t = b.Timestamp →
        (FetchTimestamp L ⟨some db⟩ tsParam none).1 = ⟨http.StatusOK, .log b⟩) ∧
      (t < a.Timestamp →
        (FetchTimestamp L ⟨some db⟩ tsParam none).1 = ⟨http.StatusNotFound, notHere⟩)) := by
  have hspec := latestAtOrBefore_spec db.rows t
  have hfound : ∀ r, gorm.latestAtOrBefore db.rows t = some r →
      (FetchTimestamp L ⟨some db⟩ tsParam none).1 = ⟨http.StatusOK, .log r⟩ := by
    intro r hr
    rcases hparse with h | ⟨h1, h2⟩
    · simp [FetchTimestamp, hne, h, gorm.FirstLatest, hr]
    · simp [FetchTimestamp, hne, h1, h2, gorm.FirstLatest, hr]
  have hnone : gorm.latestAtOrBefore db.rows t = none →
      (FetchTimestamp L ⟨some db⟩ tsParam none).1 = ⟨http.StatusNotFound, notHere⟩ := by
    intro hr
    rcases hparse with h | ⟨h1, h2⟩
    · simp [FetchTimestamp, hne, h, gorm.FirstLatest, hr]
    · simp [FetchTimestamp, hne, h1, h2, gorm.FirstLatest, hr]
  have hsome : (∃ x ∈ db.rows, x.Timestamp ≤ t) →
      ∃ r ∈ db.rows, (FetchTimestamp L ⟨some db⟩ tsParam none).1 = ⟨http.StatusOK, .log r⟩ ∧
        r.Timestamp ≤ t ∧ ∀ x ∈ db.rows, ¬ (r.Timestamp < x.Timestamp ∧ x.Timestamp ≤ t) := by
    rintro ⟨x, hx, hxt⟩
    cases hsel : gorm.latestAtOrBefore db.rows t with
    | none => exact absurd (hspec.2.mp hsel x hx) (not_lt.mpr hxt)
    | some r =>
      obtain ⟨h1, h2, h3⟩ := hspec.1 r hsel
      exact ⟨r, h1, hfound r hsel, h2, h3⟩
  refine ⟨hsome, fun h => hnone (hspec.2.mpr h), ?_⟩
  intro a b c hrows hab hbc
  refine ⟨?_, ?_⟩
  · intro ht
    obtain ⟨r, hr, hresp, hrt, hmax⟩ := hsome ⟨b, (hrows b).mpr (Or.inr (Or.inl rfl)), le_of_eq ht.symm⟩
    have hb : b ∈ db.rows := (hrows b).mpr (Or.inr (Or.inl rfl))
    rcases (hrows r).mp hr with h | h | h
    · subst h
      exact absurd ⟨hab, le_of_eq ht.symm⟩ (hmax b hb)
    · subst h
      exact hresp
    · subst h
      rw [ht] at hrt
      exact absurd hbc (not_lt.mpr hrt)
  · intro ht
    apply hnone
    apply hspec.2.mpr
    intro x hx
    rcases (hrows x).mp hx with h | h | h
    · subst h; exact ht
    · subst h; exact lt_trans ht hab
    · subst h; exact lt_trans ht (lt_trans hab hbc)

/-- C8, on a store with records at the instants 10, 20 and 30: a query at 20 returns the
record at 20, and a query at 5 is answered 404. -/
theorem FetchTimestamp_latest_witness :
    (FetchTimestamp StdLib.sample
        ⟨some ⟨[⟨1, "info", "a", 10⟩, ⟨2, "warn", "b", 20⟩, ⟨3, "log", "c", 30⟩], []⟩⟩
        "tttttttttttttttttttt" none).1 = ⟨200, .log ⟨2, "warn", "b", 20⟩⟩ ∧
    (FetchTimestamp StdLib.sample
        ⟨some ⟨[⟨1, "info", "a", 10⟩, ⟨2, "warn", "b", 20⟩, ⟨3, "log", "c", 30⟩], []⟩⟩
        "ttttt" none).1 = ⟨404, notHere⟩ := by
  refine ⟨?_, ?_⟩
  · exact ((FetchTimestamp_latest StdLib.sample
      ⟨[⟨1, "info", "a", 10⟩, ⟨2, "warn", "b", 20⟩, ⟨3, "log", "c", 30⟩], []⟩
      "tttttttttttttttttttt" 20 (by decide) (Or.inl (by decide))).2.2
      ⟨1, "info", "a", 10⟩ ⟨2, "warn", "b", 20⟩ ⟨3, "log", "c", 30⟩
      (by intro x; simp) (by decide) (by decide)).1 (by decide)
  · exact (FetchTimestamp_latest StdLib.sample
      ⟨[⟨1, "info", "a", 10⟩, ⟨2, "warn", "b", 20⟩, ⟨3, "log", "c", 30⟩], []⟩
      "ttttt" 5 (by decide) (Or.inl (by decide))).2.1 (by decide)

/-! ### the stored flags -/

/-- The rows after `DeleteLog` are rows of the store before it. -/
theorem DeleteLog_rows_subset (L : StdLib) (app : AppContext) (idParam : String)
    (findErr deleteErr : Option String) :
    ∀ x ∈ (DeleteLog L app idParam findErr deleteErr).2.rows, x ∈ app.rows := by
  intro x
  rcases app with ⟨_ | db⟩
  · simp [DeleteLog, AppContext.rows]
  · cases hid : L.uuidParse idParam with
    | none => simp [DeleteLog, hid, AppContext.rows]
    | some id =>
      cases findErr with
      | some e =>
        simp [DeleteLog, hid, gorm.FindStruct, AppContext.rows, DB.send]
      | none =>
        simp only [DeleteLog, hid, gorm.FindStruct, AppContext.rows, DB.send, gorm.Delete]
        split_ifs <;> first
          | exact id
          | (cases deleteErr <;> simp <;> intro h _ <;> exact h)

/-- The rows after `CreateLog` are the rows before it, or those rows followed by one new
row whose flag is allowed and is the normal form of the flag sent when that is not empty. -/
theorem CreateLog_rows (L : StdLib) (app : AppContext) (bound : Option Payload)
    (reply : Except String (UUID × Time)) :
    (CreateLog L app bound reply).2.rows = app.rows ∨
    ∃ p x, bound = some p ∧ (CreateLog L app bound reply).2.rows = app.rows ++ [x] ∧
      x.Flag ∈ allowed ∧
      (strings.ToLower L (strings.TrimSpace p.Flag) ≠ "" →
        x.Flag = strings.ToLower L (strings.TrimSpace p.Flag)) := by
  rcases app with ⟨_ | db⟩
  · exact Or.inl (by simp [CreateLog])
  · cases bound with
    | none => exact Or.inl (by simp [CreateLog])
    | some p =>
      by_cases hallowed :
          (if strings.ToLower L (strings.TrimSpace p.Flag) = "" then InfoFlag
            else strings.ToLower L (strings.TrimSpace p.Flag)) ∈ allowed
      · cases reply with
        | error e =>
          exact Or.inl (by simp [CreateLog, hallowed, gorm.Create, AppContext.rows, DB.send])
        | ok gen =>
          obtain ⟨id, now⟩ := gen
          refine Or.inr ⟨p, ⟨id, if strings.ToLower L (strings.TrimSpace p.Flag) = "" then InfoFlag
            else strings.ToLower L (strings.TrimSpace p.Flag), p.Message, now⟩, rfl, ?_,
            hallowed, ?_⟩
          · simp [CreateLog, hallowed, gorm.Create, AppContext.rows, Log.zero]
          · intro hne
            simp [hne]
      · exact Or.inl (by simp [CreateLog, hallowed])

/-- Serving a request keeps every stored flag allowed. -/
theorem serve_flags_allowed (L : StdLib) (app : AppContext) (req : Request)
    (h : ∀ x ∈ app.rows, x.Flag ∈ allowed) :
    ∀ x ∈ (serve L app req).2.rows, x.Flag ∈ allowed := by
  intro x hx
  cases req with
  | create bound reply =>
    rcases CreateLog_rows L app bound reply with hrows | ⟨p, y, -, hrows, hy, -⟩
    · simp only [serve, hrows] at hx
      exact h x hx
    · simp only [serve, hrows, List.mem_append, List.mem_singleton] at hx
      rcases hx with hx | hx
      · exact h x hx
      · rw [hx]
        exact hy
  | delete idParam findErr deleteErr =>
    exact h x (DeleteLog_rows_subset L app idParam findErr deleteErr x hx)

/-- Serving a sequence of requests keeps every stored flag allowed. -/
theorem serveAll_flags_allowed (L : StdLib) (reqs : List Request) :
    ∀ app : AppContext, (∀ x ∈ app.rows, x.Flag ∈ allowed) →
      ∀ x ∈ (serveAll L app reqs).rows, x.Flag ∈ allowed := by
  induction reqs with
  | nil =>
    intro app h
    exact h
  | cons req reqs ih =>
    intro app h
    exact ih (serve L app req).2 (serve_flags_allowed L app req h)

/-- An allowed flag has a rank between 0 and 5. -/
theorem GetLogLevel_of_allowed :
    ∀ f ∈ allowed, 0 ≤ GetLogLevel f ∧ GetLogLevel f ≤ 5 := by
  decide

/-- C5: a record that `CreateLog` inserts has a canonical flag, equal to the lower-cased,
trimmed flag of the request when that string is not empty; a request whose lower-cased,
trimmed flag is neither empty nor canonical is answered 400 with nothing sent to the
store; and from the empty store, after any sequence of `CreateLog` and `DeleteLog`
requests, every stored record has a rank between 0 and 5. -/
theorem stored_flags_canonical (L : StdLib) (db : DB) (p : Payload)
    (reply : Except String (UUID × Time)) (reqs : List Request) :
    ((CreateLog L ⟨some db⟩ (some p) reply).2.rows = db.rows ∨
      ∃ x, (CreateLog L ⟨some db⟩ (some p) reply).2.rows = db.rows ++ [x] ∧
        x.Flag ∈ canonicalFlags ∧
        (strings.ToLower L (strings.TrimSpace p.Flag) ≠ "" →
          x.Flag = strings.ToLower L (strings.TrimSpace p.Flag))) ∧
    (strings.ToLower L (strings.TrimSpace p.Flag) ≠ "" →
      strings.ToLower L (strings.TrimSpace p.Flag) ∉ canonicalFlags →
      (CreateLog L ⟨some db⟩ (some p) reply).1
        = ⟨http.StatusBadRequest, .error "invalid flag value"⟩ ∧
      (CreateLog L ⟨some db⟩ (some p) reply).2 = ⟨some db⟩) ∧
    (∀ x ∈ (serveAll L ⟨some ⟨[], []⟩⟩ reqs).rows,
      0 ≤ GetLogLevel x.Flag ∧ GetLogLevel x.Flag ≤ 5) := by
  refine ⟨?_, ?_, ?_⟩
  · rcases CreateLog_rows L ⟨some db⟩ (some p) reply with h | ⟨q, x, hq, hrows, hx, hnorm⟩
    · exact Or.inl h
    · cases hq
      exact Or.inr ⟨x, hrows, hx, hnorm⟩
  · intro hne hc
    have hallowed : strings.ToLower L (strings.TrimSpace p.Flag) ∉ allowed := hc
    simp [CreateLog, hne, hallowed]
  · intro x hx
    have hflag := serveAll_flags_allowed L reqs ⟨some ⟨[], []⟩⟩ (by simp [AppContext.rows]) x hx
    exact GetLogLevel_of_allowed x.Flag hflag

/-- C5, on the empty store: the flag ` WARN ` is stored as `warn`; the flag `fatal` is
refused with nothing sent; and after creating a `warn` record, an `error` record, and
deleting the first, the one stored record has rank 4. -/
theorem stored_flags_canonical_witness :
    (∃ x, (CreateLog StdLib.sample ⟨some ⟨[], []⟩⟩ (some ⟨" WARN ", "m"⟩) (.ok (1, 10))).2.rows
        = [] ++ [x] ∧ x.Flag = "warn") ∧
    (CreateLog StdLib.sample ⟨some ⟨[], []⟩⟩ (some ⟨"fatal", "m"⟩) (.ok (1, 10))).2
      = ⟨some ⟨[], []⟩⟩ ∧
    (∀ x ∈ (serveAll StdLib.sample ⟨some ⟨[], []⟩⟩
        [.create (some ⟨" WARN ", "m"⟩) (.ok (1, 10)),
         .create (some ⟨"error", "n"⟩) (.ok (2, 11)),
         .delete "u" none none]).rows,
      0 ≤ GetLogLevel x.Flag ∧ GetLogLevel x.Flag ≤ 5) := by
  refine ⟨?_, ?_, ?_⟩
  · rcases (stored_flags_canonical StdLib.sample ⟨[], []⟩ ⟨" WARN ", "m"⟩ (.ok (1, 10)) []).1
      with h | ⟨x, hrows, -, hnorm⟩
    · exact absurd h (by decide)
    · exact ⟨x, hrows, (hnorm (by decide)).trans (by decide)⟩
  · exact ((stored_flags_canonical StdLib.sample ⟨[], []⟩ ⟨"fatal", "m"⟩ (.ok (1, 10)) []).2.1
      (by decide) (by decide)).2
  · exact (stored_flags_canonical StdLib.sample ⟨[], []⟩ ⟨"x", "m"⟩ (.ok (1, 10))
      [.create (some ⟨" WARN ", "m"⟩) (.ok (1, 10)),
       .create (some ⟨"error", "n"⟩) (.ok (2, 11)),
       .delete "u" none none]).2.2

end EchoBasics
